import Mathlib

/-!
Verification of the training-and-evaluation script pattern of the
`intro-to-pytorch` notebooks (Part 3: Training Neural Networks,
Part 5: Inference and Validation).

The development shallowly embeds the locally authored logic of the two
notebooks: the per-batch accuracy computation of the validation cells, the
operation sequence of the training loop, the gradient/no-gradient state, the
mode toggling around the dropout validation pass, the SGD and Adam parameter
updates, the log-softmax / negative-log-likelihood loss, and the two
`Classifier.forward` variants.  Scores and parameters are rationals where the
notebook code is plain arithmetic, and reals where logarithms, exponentials or
square roots occur.
-/

namespace IntroPyTorch

/-! ## Per-sample classification and batch accuracy (Part 5, validation cells) -/

/-- Maximum search over the remaining scores, keeping the current best index,
best value and the index of the next element.  A later element replaces the
best only when strictly greater, so the first maximal index wins on ties.
Modelled from the spec: `ps.topk(1, dim=1)` is a framework op, not authored in
the repository; the spec states that it returns the first maximal index on
exact ties. -/
def idxOfMaxAux (best : ℕ) (bestVal : ℚ) (next : ℕ) : List ℚ → ℕ
  | [] => best
  | x :: xs =>
      if bestVal < x then idxOfMaxAux next x (next + 1) xs
      else idxOfMaxAux best bestVal (next + 1) xs

/-- `top_class` for one sample: the index of the first maximal score
(`top_p, top_class = ps.topk(1, dim=1)`). -/
def topClass : List ℚ → ℕ
  | [] => 0
  | x :: xs => idxOfMaxAux 0 x 1 xs

/-- One evaluated sample: the per-class scores produced for it and its true
label (`ps` row and the matching entry of `labels`). -/
structure Sample where
  scores : List ℚ
  label : ℕ
deriving DecidableEq

/-- A test batch, as yielded by `testloader`. -/
abbrev Batch := List Sample

/-- One entry of `equals = top_class == labels.view(*top_class.shape)`. -/
def matchIndicator (s : Sample) : Bool := topClass s.scores == s.label

/-- Number of samples of the batch whose predicted top class equals the true
label. -/
def batchMatches (b : Batch) : ℕ := (b.filter matchIndicator).length

/-- `torch.mean(equals.type(torch.FloatTensor))` for one batch: matching
samples over batch size. -/
def batchAccuracy (b : Batch) : ℚ := (batchMatches b : ℚ) / (b.length : ℚ)

/-- The dropout-variant validation pass (Part 5, cell 17): `accuracy = 0`,
then `accuracy += torch.mean(equals.type(torch.FloatTensor))` per batch, and
the reported value is `accuracy/len(testloader)`. -/
def evalAccuracyAccum (bs : List Batch) : ℚ :=
  (bs.foldl (fun acc b => acc + batchAccuracy b) 0) / (bs.length : ℚ)

/-- The first validation pass (Part 5, cell 13): inside the loop the variable
is assigned, not accumulated (`accuracy = torch.mean(...)`), and its value
after the loop is printed. -/
def evalAccuracyOverwrite (bs : List Batch) : ℚ :=
  bs.foldl (fun _ b => batchAccuracy b) 0

/-- Count of matching samples over the whole test set. -/
def totalMatches (bs : List Batch) : ℕ := (bs.map batchMatches).sum

/-- Total number of evaluated samples. -/
def totalSamples (bs : List Batch) : ℕ := (bs.map List.length).sum

lemma batchMatches_le_length (b : Batch) : batchMatches b ≤ b.length :=
  List.length_filter_le _ _

lemma batchMatches_cons (s : Sample) (t : Batch) :
    batchMatches (s :: t) = (if matchIndicator s then 1 else 0) + batchMatches t := by
  by_cases h : matchIndicator s <;> simp [batchMatches, List.filter_cons, h, Nat.add_comm]

lemma batchAccuracy_nonneg (b : Batch) : 0 ≤ batchAccuracy b :=
  div_nonneg (Nat.cast_nonneg _) (Nat.cast_nonneg _)

lemma batchAccuracy_le_one (b : Batch) : batchAccuracy b ≤ 1 := by
  rcases Nat.eq_zero_or_pos b.length with h | h
  · rcases List.length_eq_zero.mp h with rfl
    simp [batchAccuracy, batchMatches]
  · rw [batchAccuracy, div_le_one (by exact_mod_cast h)]
    exact_mod_cast batchMatches_le_length b

lemma foldl_add_accuracy (bs : List Batch) (a : ℚ) :
    bs.foldl (fun acc b => acc + batchAccuracy b) a = a + (bs.map batchAccuracy).sum := by
  induction bs generalizing a with
  | nil => simp
  | cons b t ih => simp [List.foldl_cons, ih, add_assoc]

lemma totalMatches_cons (b : Batch) (t : List Batch) :
    totalMatches (b :: t) = batchMatches b + totalMatches t := by
  simp [totalMatches]

lemma sum_map_batchAccuracy (k : ℕ) :
    ∀ bs : List Batch, (∀ b ∈ bs, b.length = k) →
      (bs.map batchAccuracy).sum = (totalMatches bs : ℚ) / (k : ℚ)
  | [], _ => by simp [totalMatches]
  | b :: t, h => by
      have hb : b.length = k := h b (List.mem_cons_self _ _)
      have ih := sum_map_batchAccuracy k t (fun x hx => h x (List.mem_cons_of_mem _ hx))
      rw [List.map_cons, List.sum_cons, ih, totalMatches_cons, batchAccuracy, hb,
        Nat.cast_add, ← div_add_div_same]

lemma totalSamples_uniform (k : ℕ) :
    ∀ bs : List Batch, (∀ b ∈ bs, b.length = k) →
      totalSamples bs = bs.length * k
  | [], _ => by simp [totalSamples]
  | b :: t, h => by
      have hb : b.length = k := h b (List.mem_cons_self _ _)
      have ih := totalSamples_uniform k t (fun x hx => h x (List.mem_cons_of_mem _ hx))
      simp [totalSamples] at ih ⊢
      rw [hb, ih]
      ring

/-- Example test set with a smaller final batch: a batch of two mismatching
samples followed by a singleton matching batch.  The score vector `[1, 0]`
has top class `0`. -/
def hitSample : Sample := ⟨[1, 0], 0⟩

/-- A sample whose predicted top class (`0`) differs from its label. -/
def missSample : Sample := ⟨[1, 0], 1⟩

/-- Test set with batches of unequal size for the accuracy formula. -/
def unevenBatches : List Batch := [[missSample, missSample], [hitSample]]

lemma matchIndicator_hit : matchIndicator hitSample = true := by
  norm_num [matchIndicator, hitSample, topClass, idxOfMaxAux]

lemma matchIndicator_miss : matchIndicator missSample = false := by
  norm_num [matchIndicator, missSample, topClass, idxOfMaxAux]

/-- C1, counterexample: with a final batch smaller than the others, averaging
per-batch means and dividing by the batch count reports `(0 + 1)/2 = 1/2`,
while the exact ratio of matching samples is `1/3`; the claimed equality
fails. -/
theorem C1_counterexample :
    evalAccuracyAccum unevenBatches ≠
      (totalMatches unevenBatches : ℚ) / (totalSamples unevenBatches : ℚ) := by
  have h : evalAccuracyAccum unevenBatches = 1 / 2 := by
    simp [evalAccuracyAccum, unevenBatches, batchAccuracy, batchMatches_cons, batchMatches,
      matchIndicator_hit, matchIndicator_miss]
  have h' : (totalMatches unevenBatches : ℚ) / (totalSamples unevenBatches : ℚ) = 1 / 3 := by
    simp [totalMatches, totalSamples, unevenBatches, batchMatches_cons, batchMatches,
      matchIndicator_hit, matchIndicator_miss]
  rw [h, h']
  norm_num

/-- C1 (amended): for every finite test set the reported accuracy lies in
`[0, 1]`, unconditionally; and when every evaluated batch has the same
positive size the reported accuracy equals exactly the number of samples
whose predicted top class equals the true label divided by the total number
of samples evaluated. -/
theorem C1_accuracy_uniform_batches (bs : List Batch) :
    0 ≤ evalAccuracyAccum bs ∧ evalAccuracyAccum bs ≤ 1 ∧
      ∀ k, 0 < k → (∀ b ∈ bs, b.length = k) →
        evalAccuracyAccum bs = (totalMatches bs : ℚ) / (totalSamples bs : ℚ) := by
  have hacc : evalAccuracyAccum bs = (bs.map batchAccuracy).sum / (bs.length : ℚ) := by
    rw [evalAccuracyAccum, foldl_add_accuracy, zero_add]
  refine ⟨?_, ?_, ?_⟩
  · rw [hacc]
    exact div_nonneg
      (List.sum_nonneg (by
        intro x hx
        rcases List.mem_map.mp hx with ⟨b, _, rfl⟩
        exact batchAccuracy_nonneg b))
      (Nat.cast_nonneg _)
  · rcases Nat.eq_zero_or_pos bs.length with hn | hn
    · rcases List.length_eq_zero.mp hn with rfl
      norm_num [evalAccuracyAccum]
    · rw [hacc, div_le_one (by exact_mod_cast hn)]
      calc (bs.map batchAccuracy).sum
          ≤ (bs.map batchAccuracy).length • (1 : ℚ) := by
            refine List.sum_le_card_nsmul _ _ ?_
            intro x hx
            rcases List.mem_map.mp hx with ⟨b, _, rfl⟩
            exact batchAccuracy_le_one b
        _ = (bs.length : ℚ) := by simp
  · intro k _hk hlen
    rw [hacc, sum_map_batchAccuracy k bs hlen, div_div, totalSamples_uniform k bs hlen]
    push_cast
    ring_nf

/-- C1, witness: on the uneven counterexample set the bounds hold, and on two
batches of size two with one matching sample the bounds hold and the reported
accuracy equals the exact match ratio `1/4`. -/
theorem C1_accuracy_uniform_batches_witness :
    (0 ≤ evalAccuracyAccum unevenBatches ∧ evalAccuracyAccum unevenBatches ≤ 1) ∧
      0 ≤ evalAccuracyAccum [[missSample, missSample], [hitSample, missSample]] ∧
      evalAccuracyAccum [[missSample, missSample], [hitSample, missSample]] ≤ 1 ∧
      evalAccuracyAccum [[missSample, missSample], [hitSample, missSample]] =
        (totalMatches [[missSample, missSample], [hitSample, missSample]] : ℚ) /
          (totalSamples [[missSample, missSample], [hitSample, missSample]] : ℚ) :=
  ⟨⟨(C1_accuracy_uniform_batches unevenBatches).1,
    (C1_accuracy_uniform_batches unevenBatches).2.1⟩,
    (C1_accuracy_uniform_batches [[missSample, missSample], [hitSample, missSample]]).1,
    (C1_accuracy_uniform_batches [[missSample, missSample], [hitSample, missSample]]).2.1,
    (C1_accuracy_uniform_batches [[missSample, missSample], [hitSample, missSample]]).2.2
      2 (by decide) (by decide)⟩

/-- Two singleton test batches: the first sample is predicted correctly, the
second is not. -/
def c2Batches : List Batch := [[hitSample], [missSample]]

/-- C2: the first validation loop overwrites `accuracy` on every batch, so
the value printed after the loop is the final batch's mean (here `0`), not
the mean of the match indicator across all evaluated batches (here `1/2`);
the code disagrees with the notebook's own instruction to report the total
accuracy. -/
theorem C2_overwrite_reports_final_batch_only :
    evalAccuracyOverwrite c2Batches = batchAccuracy [missSample] ∧
      evalAccuracyOverwrite c2Batches = 0 ∧
      (totalMatches c2Batches : ℚ) / (totalSamples c2Batches : ℚ) = 1 / 2 ∧
      evalAccuracyOverwrite c2Batches ≠
        (totalMatches c2Batches : ℚ) / (totalSamples c2Batches : ℚ) := by
  have h : (totalMatches c2Batches : ℚ) / (totalSamples c2Batches : ℚ) = 1 / 2 := by
    simp [totalMatches, totalSamples, c2Batches, batchMatches_cons, batchMatches,
      matchIndicator_hit, matchIndicator_miss]
  have h' : evalAccuracyOverwrite c2Batches = 0 := by
    simp [evalAccuracyOverwrite, c2Batches, batchAccuracy, batchMatches_cons, batchMatches,
      matchIndicator_miss]
  refine ⟨?_, h', ?_, ?_⟩
  · rw [h']
    simp [batchAccuracy, batchMatches_cons, batchMatches, matchIndicator_miss]
  · exact h
  · rw [h, h']
    norm_num

/-! ## Tensor dtypes and `torch.mean` (Part 5, cells 10-11) -/

/-- The two element types the accuracy computation meets: the byte-typed
comparison result and float tensors. -/
inductive DType
  | byte
  | float
deriving DecidableEq

/-- A rank-one tensor: an element type tag and the data. -/
structure Tensor where
  dtype : DType
  data : List ℚ
deriving DecidableEq

/-- Modelled from the spec: `torch.mean` is framework code; the notebook
records that it raises `RuntimeError: mean is not implemented for type
torch.ByteTensor` on byte tensors and averages float tensors. -/
def torchMean (t : Tensor) : Except String ℚ :=
  match t.dtype with
  | DType.byte => Except.error "mean is not implemented for type torch.ByteTensor"
  | DType.float => Except.ok (t.data.sum / (t.data.length : ℚ))

/-- `equals.type(torch.FloatTensor)`: the explicit conversion to float. -/
def typeFloatTensor (t : Tensor) : Tensor := { t with dtype := DType.float }

/-- `equals = top_class == labels.view(*top_class.shape)`: a byte-typed 0/1
indicator per sample. -/
def equalsTensor (b : Batch) : Tensor :=
  ⟨DType.byte, b.map (fun s => if matchIndicator s then (1 : ℚ) else 0)⟩

/-- The source's accuracy expression
`torch.mean(equals.type(torch.FloatTensor))`. -/
def accuracyExpr (b : Batch) : Except String ℚ :=
  torchMean (typeFloatTensor (equalsTensor b))

lemma sum_indicator (b : Batch) :
    (b.map (fun s => if matchIndicator s then (1 : ℚ) else 0)).sum = (batchMatches b : ℚ) := by
  induction b with
  | nil => simp [batchMatches]
  | cons s t ih =>
      rw [List.map_cons, List.sum_cons, ih, batchMatches_cons]
      by_cases h : matchIndicator s <;> simp [h]

/-- C9: applying `torch.mean` directly to the byte-typed indicator tensor
fails with an error, while the source's expression, which converts to a float
tensor first, succeeds and returns the batch's match ratio. -/
theorem C9_mean_needs_float_conversion (b : Batch) :
    (∃ msg, torchMean (equalsTensor b) = Except.error msg) ∧
      accuracyExpr b = Except.ok (batchAccuracy b) := by
  refine ⟨⟨_, rfl⟩, ?_⟩
  simp [accuracyExpr, torchMean, typeFloatTensor, equalsTensor, batchAccuracy, sum_indicator]

/-! ## Operational model of the training / validation scripts

The training loops of Part 3 (cell 29) and Part 5 (cells 13 and 17) and the
validation loops are straight-line sequences of framework calls.  We embed
them as lists of operations interpreted over an explicit state: parameter
vector, gradient buffers, train/eval mode, the gradient-tracking flag toggled
by `torch.no_grad()`, the last forward output, the last loss value and the
running accumulators.  The framework collaborators (forward computation, loss
criterion, gradient of the loss, per-batch accuracy) are opaque functions
supplied as parameters, as the spec describes them. -/

/-- Train / evaluation mode of the model (`model.train()` / `model.eval()`). -/
inductive Mode
  | train
  | eval
deriving DecidableEq

/-- One framework call appearing in the notebook loops. -/
inductive TrainOp (β : Type) where
  | zeroGrad
  | forward (b : β)
  | computeLoss (b : β)
  | backward (b : β)
  | optStep
  | accumLoss
  | noGradOn
  | noGradOff
  | setMode (m : Mode)
  | accumTestLoss (b : β)
  | accumAccuracy (b : β)
deriving DecidableEq

/-- The external collaborators: forward map, loss criterion, gradient of the
loss with respect to the parameters, per-batch accuracy of an output, and the
learning rate handed to the optimizer at construction. -/
structure Framework (β ω : Type) (d : ℕ) where
  outFn : (Fin d → ℚ) → β → ω
  critFn : ω → β → ℚ
  gradFn : (Fin d → ℚ) → β → Fin d → ℚ
  accFn : ω → β → ℚ

/-- The mutable state the notebook cells touch. -/
@[ext] structure LoopState (ω : Type) (d : ℕ) where
  params : Fin d → ℚ
  grad : Fin d → ℚ
  mode : Mode
  gradEnabled : Bool
  output : ω
  lossVal : ℚ
  runningLoss : ℚ
  testLoss : ℚ
  accSum : ℚ

variable {β ω : Type} {d : ℕ}

/-- Effect of one framework call.  `backward` adds the new gradient into the
buffers (autograd accumulates); `optStep` is the SGD rule over the current
buffers; `zeroGrad` is `optimizer.zero_grad()`. -/
def execOp (F : Framework β ω d) (lr : ℚ) (s : LoopState ω d) : TrainOp β → LoopState ω d
  | TrainOp.zeroGrad => { s with grad := fun _ => 0 }
  | TrainOp.forward b => { s with output := F.outFn s.params b }
  | TrainOp.computeLoss b => { s with lossVal := F.critFn s.output b }
  | TrainOp.backward b => { s with grad := fun i => s.grad i + F.gradFn s.params b i }
  | TrainOp.optStep => { s with params := fun i => s.params i - lr * s.grad i }
  | TrainOp.accumLoss => { s with runningLoss := s.runningLoss + s.lossVal }
  | TrainOp.noGradOn => { s with gradEnabled := false }
  | TrainOp.noGradOff => { s with gradEnabled := true }
  | TrainOp.setMode m => { s with mode := m }
  | TrainOp.accumTestLoss b => { s with testLoss := s.testLoss + F.critFn s.output b }
  | TrainOp.accumAccuracy b => { s with accSum := s.accSum + F.accFn s.output b }

/-- Run a sequence of framework calls. -/
def execProg (F : Framework β ω d) (lr : ℚ) (s : LoopState ω d)
    (p : List (TrainOp β)) : LoopState ω d :=
  p.foldl (execOp F lr) s

/-- Body of the training loop for one batch, in source order:
`optimizer.zero_grad()`, `output = model(images)`,
`loss = criterion(output, labels)`, `loss.backward()`, `optimizer.step()`,
`running_loss += loss.item()`. -/
def batchProgram (b : β) : List (TrainOp β) :=
  [TrainOp.zeroGrad, TrainOp.forward b, TrainOp.computeLoss b,
   TrainOp.backward b, TrainOp.optStep, TrainOp.accumLoss]

/-- One epoch: the batch body repeated over the loader's batches. -/
def epochProgram (bs : List β) : List (TrainOp β) := (bs.map batchProgram).flatten

/-- Body of the dropout-variant validation loop for one batch:
`log_ps = model(images)`, `test_loss += criterion(log_ps, labels)`,
`accuracy += torch.mean(equals.type(torch.FloatTensor))`. -/
def evalBatchProgram (b : β) : List (TrainOp β) :=
  [TrainOp.forward b, TrainOp.accumTestLoss b, TrainOp.accumAccuracy b]

/-- The dropout-variant validation pass of Part 5, cell 17:
`with torch.no_grad(): model.eval(); <loop>` followed by `model.train()`. -/
def validationProgram (bs : List β) : List (TrainOp β) :=
  TrainOp.noGradOn :: TrainOp.setMode Mode.eval ::
    ((bs.map evalBatchProgram).flatten ++ [TrainOp.noGradOff, TrainOp.setMode Mode.train])

lemma execProg_append (F : Framework β ω d) (lr : ℚ) (s : LoopState ω d)
    (p q : List (TrainOp β)) :
    execProg F lr s (p ++ q) = execProg F lr (execProg F lr s p) q := by
  simp [execProg, List.foldl_append]

/-- Full effect of one training-loop iteration. -/
lemma execProg_batchProgram (F : Framework β ω d) (lr : ℚ) (s : LoopState ω d) (b : β) :
    execProg F lr s (batchProgram b) =
      { s with
        params := fun i => s.params i - lr * F.gradFn s.params b i,
        grad := F.gradFn s.params b,
        output := F.outFn s.params b,
        lossVal := F.critFn (F.outFn s.params b) b,
        runningLoss := s.runningLoss + F.critFn (F.outFn s.params b) b } := by
  simp only [execProg, batchProgram, List.foldl_cons, List.foldl_nil, execOp]
  ext i <;> simp

/-- C3: in each epoch, immediately before the backward call of any batch the
gradient buffer of every parameter is zero: the batch body decomposes as the
pre-backward prefix `zero_grad; forward; loss` followed by
`backward; step; accumulate`, and running any earlier batches and then that
prefix leaves an all-zero gradient buffer, so nothing computed for an earlier
batch survives into the backward call of a later one. -/
theorem C3_grad_zero_before_backward (F : Framework β ω d) (lr : ℚ)
    (s0 : LoopState ω d) (pre post : List β) (b : β) :
    epochProgram (pre ++ b :: post) =
      epochProgram pre ++
        ([TrainOp.zeroGrad, TrainOp.forward b, TrainOp.computeLoss b] ++
          ([TrainOp.backward b, TrainOp.optStep, TrainOp.accumLoss] ++ epochProgram post)) ∧
    (execProg F lr (execProg F lr s0 (epochProgram pre))
        [TrainOp.zeroGrad, TrainOp.forward b, TrainOp.computeLoss b]).grad = fun _ => 0 := by
  constructor
  · simp [epochProgram, batchProgram]
  · rfl

/-- The purely functional reference description of one epoch: a fold that
updates the parameters by one SGD step per batch and adds each batch's loss
(at the parameters current when that batch was processed) to the running
loss. -/
def epochRef (F : Framework β ω d) (lr : ℚ) (init : (Fin d → ℚ) × ℚ) (bs : List β) :
    (Fin d → ℚ) × ℚ :=
  bs.foldl
    (fun pr b =>
      (fun i => pr.1 i - lr * F.gradFn pr.1 b i,
       pr.2 + F.critFn (F.outFn pr.1 b) b))
    init

/-- C4: the epoch body performs, per batch and in source order, zero-grad,
forward, loss, backward, optimizer step and loss accumulation; its outcome is
exactly the reference fold on (parameters, running loss), and it changes
neither the train/eval mode nor the gradient-tracking flag — the epoch
returns only accumulated statistics and mutates the parameters in place. -/
theorem C4_epoch_contract (F : Framework β ω d) (lr : ℚ) (s0 : LoopState ω d)
    (bs : List β) :
    (∀ b : β, batchProgram b =
      [TrainOp.zeroGrad, TrainOp.forward b, TrainOp.computeLoss b,
       TrainOp.backward b, TrainOp.optStep, TrainOp.accumLoss]) ∧
    ((execProg F lr s0 (epochProgram bs)).params,
      (execProg F lr s0 (epochProgram bs)).runningLoss) =
        epochRef F lr (s0.params, s0.runningLoss) bs ∧
    (execProg F lr s0 (epochProgram bs)).mode = s0.mode ∧
    (execProg F lr s0 (epochProgram bs)).gradEnabled = s0.gradEnabled := by
  refine ⟨fun _ => rfl, ?_⟩
  induction bs generalizing s0 with
  | nil => simp [epochProgram, execProg, epochRef]
  | cons b t ih =>
      have hsplit : epochProgram (b :: t) = batchProgram b ++ epochProgram t := by
        simp [epochProgram]
      rw [hsplit, execProg_append, execProg_batchProgram]
      rcases ih ({ s0 with
        params := fun i => s0.params i - lr * F.gradFn s0.params b i,
        grad := F.gradFn s0.params b,
        output := F.outFn s0.params b,
        lossVal := F.critFn (F.outFn s0.params b) b,
        runningLoss := s0.runningLoss + F.critFn (F.outFn s0.params b) b }) with
        ⟨h1, h2, h3⟩
      exact ⟨by rw [h1]; rfl, h2, h3⟩

/-- Operations that write the parameter vector. -/
def writesParams : TrainOp β → Bool
  | TrainOp.optStep => true
  | _ => false

/-- Operations that write a gradient buffer. -/
def writesGrad : TrainOp β → Bool
  | TrainOp.zeroGrad => true
  | TrainOp.backward _ => true
  | _ => false

lemma execOp_params_of_not_writes (F : Framework β ω d) (lr : ℚ) (s : LoopState ω d)
    (op : TrainOp β) (h : writesParams op = false) :
    (execOp F lr s op).params = s.params := by
  cases op <;> simp_all [execOp, writesParams]

lemma execOp_grad_of_not_writes (F : Framework β ω d) (lr : ℚ) (s : LoopState ω d)
    (op : TrainOp β) (h : writesGrad op = false) :
    (execOp F lr s op).grad = s.grad := by
  cases op <;> simp_all [execOp, writesGrad]

lemma execOp_gradEnabled_false (F : Framework β ω d) (lr : ℚ) (s : LoopState ω d)
    (op : TrainOp β) (h : op ≠ TrainOp.noGradOff) (hs : s.gradEnabled = false) :
    (execOp F lr s op).gradEnabled = false := by
  cases op <;> simp_all [execOp]

lemma execProg_params_of_not_writes (F : Framework β ω d) (lr : ℚ) :
    ∀ (p : List (TrainOp β)) (s : LoopState ω d),
      (∀ op ∈ p, writesParams op = false) → (execProg F lr s p).params = s.params
  | [], _, _ => rfl
  | op :: t, s, h => by
      calc (execProg F lr s (op :: t)).params
          = (execProg F lr (execOp F lr s op) t).params := rfl
        _ = (execOp F lr s op).params :=
            execProg_params_of_not_writes F lr t _
              (fun x hx => h x (List.mem_cons_of_mem _ hx))
        _ = s.params := execOp_params_of_not_writes F lr s op (h op (List.mem_cons_self _ _))

lemma execProg_grad_of_not_writes (F : Framework β ω d) (lr : ℚ) :
    ∀ (p : List (TrainOp β)) (s : LoopState ω d),
      (∀ op ∈ p, writesGrad op = false) → (execProg F lr s p).grad = s.grad
  | [], _, _ => rfl
  | op :: t, s, h => by
      calc (execProg F lr s (op :: t)).grad
          = (execProg F lr (execOp F lr s op) t).grad := rfl
        _ = (execOp F lr s op).grad :=
            execProg_grad_of_not_writes F lr t _
              (fun x hx => h x (List.mem_cons_of_mem _ hx))
        _ = s.grad := execOp_grad_of_not_writes F lr s op (h op (List.mem_cons_self _ _))

lemma execProg_gradEnabled_false (F : Framework β ω d) (lr : ℚ) :
    ∀ (p : List (TrainOp β)) (s : LoopState ω d), s.gradEnabled = false →
      (∀ op ∈ p, op ≠ TrainOp.noGradOff) → (execProg F lr s p).gradEnabled = false
  | [], _, hs, _ => hs
  | op :: t, s, hs, h => by
      rw [execProg, List.foldl_cons]
      exact execProg_gradEnabled_false F lr t _
        (execOp_gradEnabled_false F lr s op (h op (List.mem_cons_self _ _)) hs)
        (fun x hx => h x (List.mem_cons_of_mem _ hx))

lemma mem_evalSection {op : TrainOp β} {bs : List β}
    (h : op ∈ (bs.map evalBatchProgram).flatten) :
    ∃ b, op = TrainOp.forward b ∨ op = TrainOp.accumTestLoss b ∨
      op = TrainOp.accumAccuracy b := by
  rcases List.mem_flatten.mp h with ⟨l, hl, hop⟩
  rcases List.mem_map.mp hl with ⟨b, _, rfl⟩
  simp only [evalBatchProgram, List.mem_cons, List.mem_singleton] at hop
  rcases hop with h' | h' | h' | h'
  · exact ⟨b, Or.inl h'⟩
  · exact ⟨b, Or.inr (Or.inl h')⟩
  · exact ⟨b, Or.inr (Or.inr h')⟩
  · exact absurd h' (by simp)

lemma evalSection_not_writesParams {op : TrainOp β} {bs : List β}
    (h : op ∈ (bs.map evalBatchProgram).flatten) : writesParams op = false := by
  rcases mem_evalSection h with ⟨b, h' | h' | h'⟩ <;> subst h' <;> rfl

lemma evalSection_not_writesGrad {op : TrainOp β} {bs : List β}
    (h : op ∈ (bs.map evalBatchProgram).flatten) : writesGrad op = false := by
  rcases mem_evalSection h with ⟨b, h' | h' | h'⟩ <;> subst h' <;> rfl

lemma evalSection_not_noGradOff {op : TrainOp β} {bs : List β}
    (h : op ∈ (bs.map evalBatchProgram).flatten) : op ≠ TrainOp.noGradOff := by
  rcases mem_evalSection h with ⟨b, h' | h' | h'⟩ <;> subst h' <;> simp

/-- C5: a full run of the dropout-variant validation pass leaves every
parameter and every gradient buffer exactly as they were, and at every point
during the batch loop (after entering `torch.no_grad()` and `model.eval()`,
up to any prefix of the evaluated batches) gradient tracking is off and the
parameters and gradient buffers still hold their initial values. -/
theorem C5_validation_pass_frame (F : Framework β ω d) (lr : ℚ)
    (s0 : LoopState ω d) (bs : List β) :
    (execProg F lr s0 (validationProgram bs)).params = s0.params ∧
    (execProg F lr s0 (validationProgram bs)).grad = s0.grad ∧
    ∀ q, q <+: (bs.map evalBatchProgram).flatten →
      (execProg F lr s0
        (TrainOp.noGradOn :: TrainOp.setMode Mode.eval :: q)).gradEnabled = false ∧
      (execProg F lr s0 (TrainOp.noGradOn :: TrainOp.setMode Mode.eval :: q)).grad = s0.grad ∧
      (execProg F lr s0 (TrainOp.noGradOn :: TrainOp.setMode Mode.eval :: q)).params =
        s0.params := by
  have hops : ∀ op ∈ validationProgram (β := β) bs,
      writesParams op = false ∧ writesGrad op = false := by
    intro op hop
    simp only [validationProgram, List.mem_cons, List.mem_append,
      List.mem_singleton, List.not_mem_nil, or_false] at hop
    rcases hop with h' | h' | h' | h' | h'
    · subst h'; exact ⟨rfl, rfl⟩
    · subst h'; exact ⟨rfl, rfl⟩
    · exact ⟨evalSection_not_writesParams h', evalSection_not_writesGrad h'⟩
    · subst h'; exact ⟨rfl, rfl⟩
    · subst h'; exact ⟨rfl, rfl⟩
  refine ⟨?_, ?_, ?_⟩
  · exact execProg_params_of_not_writes F lr _ s0 (fun op hop => (hops op hop).1)
  · exact execProg_grad_of_not_writes F lr _ s0 (fun op hop => (hops op hop).2)
  · intro q hq
    have hmem : ∀ op ∈ q, op ∈ (bs.map evalBatchProgram).flatten := fun op hop => hq.subset hop
    have hpre : ∀ op ∈ (TrainOp.noGradOn :: TrainOp.setMode Mode.eval :: q),
        writesParams op = false ∧ writesGrad (β := β) op = false := by
      intro op hop
      rcases hop with _ | ⟨_, hop⟩
      · exact ⟨rfl, rfl⟩
      · rcases hop with _ | ⟨_, hop⟩
        · exact ⟨rfl, rfl⟩
        · exact ⟨evalSection_not_writesParams (hmem op hop),
            evalSection_not_writesGrad (hmem op hop)⟩
    refine ⟨?_, ?_, ?_⟩
    · show (execProg F lr (execOp F lr (execOp F lr s0 TrainOp.noGradOn)
        (TrainOp.setMode Mode.eval)) q).gradEnabled = false
      exact execProg_gradEnabled_false F lr q _ rfl
        (fun op hop => evalSection_not_noGradOff (hmem op hop))
    · exact execProg_grad_of_not_writes F lr _ s0 (fun op hop => (hpre op hop).2)
    · exact execProg_params_of_not_writes F lr _ s0 (fun op hop => (hpre op hop).1)

/-- A trivial concrete framework instance over one parameter. -/
def unitFW : Framework Unit Unit 1 :=
  ⟨fun _ _ => (), fun _ _ => 0, fun _ _ _ => 0, fun _ _ => 0⟩

/-- A concrete starting state with nonzero parameter and gradient values. -/
def someState : LoopState Unit 1 :=
  ⟨fun _ => 2, fun _ => 3, Mode.train, true, (), 0, 0, 0, 0⟩

/-- C5, witness: on a one-batch test loader the frame property holds at the
whole batch section. -/
theorem C5_validation_pass_frame_witness :
    (execProg unitFW 1 someState
      (TrainOp.noGradOn :: TrainOp.setMode Mode.eval :: evalBatchProgram ())).gradEnabled =
        false ∧
    (execProg unitFW 1 someState
      (TrainOp.noGradOn :: TrainOp.setMode Mode.eval :: evalBatchProgram ())).grad =
        someState.grad ∧
    (execProg unitFW 1 someState
      (TrainOp.noGradOn :: TrainOp.setMode Mode.eval :: evalBatchProgram ())).params =
        someState.params :=
  (C5_validation_pass_frame unitFW 1 someState [()]).2.2 (evalBatchProgram ()) ⟨[], rfl⟩

/-! ## Mode toggling around the validation pass, with failing framework calls

Part 5, cell 17 runs `model.eval()` inside the `with torch.no_grad():` block
and `model.train()` as the next statement after the block.  Nothing catches
exceptions, so a framework error raised while evaluating a batch (the spec's
fatal, unrecovered failures such as shape mismatches) propagates and the
`model.train()` statement never executes.  A framework forward call that may
fail is modelled as an `Option`-valued function. -/

/-- The validation loop body over a possibly failing forward call: on the
first failing batch the exception propagates (`none`); otherwise the per-batch
accuracies are accumulated. -/
def evalLoopFallible (fw : Mode → β → Option ℚ) (m : Mode) : List β → Option ℚ
  | [] => some 0
  | b :: bs =>
      match fw m b with
      | none => none
      | some a => (evalLoopFallible fw m bs).map (fun acc => a + acc)

/-- The statement sequence of cell 17 around the loop: set the mode to eval,
run the loop, and — only when the loop finishes normally — set the mode back
to train.  The returned pair is the model's mode after the pass and the
loop's outcome. -/
def validationPassFallible (fw : Mode → β → Option ℚ) (bs : List β) : Mode × Option ℚ :=
  match evalLoopFallible fw Mode.eval bs with
  | none => (Mode.eval, none)
  | some acc => (Mode.train, some acc)

/-- A forward call that raises on every batch. -/
def failingForward : Mode → Unit → Option ℚ := fun _ _ => none

/-- C6, counterexample: when the forward call of the single batch raises, the
pass exits exceptionally and the model is left in evaluation mode — training
mode is not restored on this exit path, contradicting the claim that the
restore happens on every exit path including exceptional ones. -/
theorem C6_counterexample :
    (validationPassFallible failingForward [()]).1 ≠ Mode.train ∧
      (validationPassFallible failingForward [()]).2 = none := by
  constructor
  · simp [validationPassFallible, evalLoopFallible, failingForward]
  · simp [validationPassFallible, evalLoopFallible, failingForward]

/-- C6 (amended): the pass switches the model into evaluation mode before the
first batch and the whole loop runs in evaluation mode; when the loop
completes normally, training mode is restored afterwards; on an exceptional
exit the model stays in evaluation mode. -/
theorem C6_mode_toggle_order (fw : Mode → β → Option ℚ) (bs : List β) :
    (validationPassFallible fw bs).2 = evalLoopFallible fw Mode.eval bs ∧
      ((evalLoopFallible fw Mode.eval bs).isSome →
        (validationPassFallible fw bs).1 = Mode.train) ∧
      (evalLoopFallible fw Mode.eval bs = none →
        (validationPassFallible fw bs).1 = Mode.eval) := by
  rcases h : evalLoopFallible fw Mode.eval bs with _ | acc
  · exact ⟨by simp [validationPassFallible, h], by simp [validationPassFallible, h],
      fun _ => by simp [validationPassFallible, h]⟩
  · exact ⟨by simp [validationPassFallible, h],
      fun _ => by simp [validationPassFallible, h], by simp [h]⟩

/-- A forward call that succeeds on every batch. -/
def okForward : Mode → Unit → Option ℚ := fun _ _ => some 1

/-- C6, witness: on a two-batch loader whose forward calls succeed, the pass
ends with the model back in training mode. -/
theorem C6_mode_toggle_order_witness :
    (validationPassFallible okForward [(), ()]).1 = Mode.train :=
  (C6_mode_toggle_order okForward [(), ()]).2.1 (by decide)

/-! ## Optimizer update steps (Part 3: SGD, Part 5: Adam)

Part 3 constructs `optim.SGD(model.parameters(), lr=0.01)` (and `lr=0.003` in
the epoch loop); one step writes `p := p - lr * p.grad` for each parameter.
Part 5 constructs `optim.Adam(model.parameters(), lr=0.003)` with the default
hyperparameters `betas=(0.9, 0.999)`, `eps=1e-8`; Adam keeps per-parameter
moment estimates and its step size is proportional to the learning rate but
mediated by the momentum, so a step's change can vanish even at a nonzero
gradient. -/

/-- One SGD update for one parameter. -/
def sgdStep (lr θ g : ℚ) : ℚ := θ - lr * g

/-- Adam's per-parameter optimizer state: the two moment estimates and the
step count. -/
structure AdamState where
  m : ℝ
  v : ℝ
  t : ℕ

/-- One Adam update for one parameter, following the framework's documented
rule: update the biased moments, correct the bias, and move the parameter by
`lr * mhat / (sqrt vhat + eps)`. -/
noncomputable def adamStep (lr b1 b2 eps : ℝ) (st : AdamState) (θ g : ℝ) :
    ℝ × AdamState :=
  let t' := st.t + 1
  let m' := b1 * st.m + (1 - b1) * g
  let v' := b2 * st.v + (1 - b2) * g ^ 2
  let mhat := m' / (1 - b1 ^ t')
  let vhat := v' / (1 - b2 ^ t')
  (θ - lr * mhat / (Real.sqrt vhat + eps), ⟨m', v', t'⟩)

/-- The first Adam step of the Part 5 configuration on gradient `1`. -/
noncomputable def adamEx1 : ℝ × AdamState :=
  adamStep (3 / 1000) (9 / 10) (999 / 1000) (1 / 100000000) ⟨0, 0, 0⟩ 0 1

/-- The second Adam step, on gradient `-9/10`, from the state after
`adamEx1`. -/
noncomputable def adamEx2 : ℝ × AdamState :=
  adamStep (3 / 1000) (9 / 10) (999 / 1000) (1 / 100000000) adamEx1.2 adamEx1.1 (-(9 / 10))

/-- C7, counterexample: in the Adam training loop of Part 5 a step can leave
a parameter unchanged although its gradient buffer is nonzero: after a first
step on gradient `1`, the second step's gradient `-9/10` makes the updated
first moment `0.9 * 0.1 + 0.1 * (-0.9) = 0`, so the parameter does not move,
refuting the claim that every update step with a nonzero gradient changes the
parameter by a nonzero amount. -/
theorem C7_counterexample :
    adamEx2.1 = adamEx1.1 ∧ ((-(9 / 10) : ℝ)) ≠ 0 := by
  constructor
  · have hm : (9 / 10 : ℝ) * ((9 / 10) * 0 + (1 - 9 / 10) * 1) +
        (1 - 9 / 10) * (-(9 / 10)) = 0 := by norm_num
    simp only [adamEx2, adamEx1, adamStep]
    rw [hm]
    simp
  · norm_num

/-- C7 (amended): for the SGD optimizer of Part 3 every update step at a
nonzero gradient moves the parameter by exactly minus the learning rate times
the gradient, a nonzero change proportional to the learning rate; for the
Adam optimizer of Part 5 the same holds at the first step taken from the
freshly constructed optimizer state, though not at every later step. -/
theorem C7_step_changes_parameter (lr θ g : ℚ) (θr gr : ℝ)
    (hlr : 0 < lr) (hg : g ≠ 0) (hgr : gr ≠ 0) :
    (sgdStep lr θ g - θ = -(lr * g) ∧ sgdStep lr θ g ≠ θ) ∧
      (adamStep (3 / 1000) (9 / 10) (999 / 1000) (1 / 100000000) ⟨0, 0, 0⟩ θr gr).1 ≠ θr := by
  refine ⟨⟨by rw [sgdStep]; ring, ?_⟩, ?_⟩
  · intro h
    have : lr * g = 0 := by
      have := sub_eq_zero.mpr h
      rw [sgdStep] at this
      linarith
    rcases mul_eq_zero.mp this with h' | h'
    · exact absurd h' (ne_of_gt hlr)
    · exact hg h'
  · simp only [adamStep, ne_eq, sub_eq_self]
    intro hX
    rcases div_eq_zero_iff.mp hX with h1 | h1
    · rcases mul_eq_zero.mp h1 with h2 | h2
      · norm_num at h2
      · rcases div_eq_zero_iff.mp h2 with h3 | h3
        · apply hgr; linarith
        · norm_num at h3
    · have hs := Real.sqrt_nonneg
        (((999 : ℝ) / 1000 * 0 + (1 - 999 / 1000) * gr ^ 2) / (1 - (999 / 1000) ^ (0 + 1)))
      linarith

/-- C7, witness: with learning rate `1/100`, parameter `5` and gradient `2`
the SGD step moves by exactly `-(1/100 * 2)`, and the first Adam step from
the fresh state moves the parameter `7` at gradient `1`. -/
theorem C7_step_changes_parameter_witness :
    (sgdStep (1 / 100) 5 2 - 5 = -((1 / 100) * 2) ∧ sgdStep (1 / 100) 5 2 ≠ 5) ∧
      (adamStep (3 / 1000) (9 / 10) (999 / 1000) (1 / 100000000) ⟨0, 0, 0⟩ 7 1).1 ≠ 7 :=
  C7_step_changes_parameter (1 / 100) 5 2 7 1 (by norm_num) (by norm_num) (by norm_num)

/-! ## Loss of the all-zero model (Part 3, cells 5 and 7)

Part 3 builds `nn.Sequential(Linear, ReLU, Linear, ReLU, Linear)` with
`nn.CrossEntropyLoss()` (cell 5) and the same stack ending in
`nn.LogSoftmax(dim=1)` with `nn.NLLLoss()` (cell 7).  The layers are affine
maps; the scenario of the claim instantiates the output dimension at two
classes. -/

/-- `nn.ReLU()` on one coordinate. -/
def relu (x : ℝ) : ℝ := max x 0

/-- `nn.Linear(m, n)`: an affine map given by a weight matrix and a bias. -/
def linearLayer {m n : ℕ} (W : Fin n → Fin m → ℝ) (bias : Fin n → ℝ)
    (x : Fin m → ℝ) (j : Fin n) : ℝ :=
  (∑ i, W j i * x i) + bias j

/-- `nn.LogSoftmax(dim=1)` on one row. -/
noncomputable def logSoftmax {k : ℕ} (z : Fin k → ℝ) (i : Fin k) : ℝ :=
  z i - Real.log (∑ j, Real.exp (z j))

/-- `nn.NLLLoss()` with its default mean reduction: minus the mean of the
log-probability assigned to each sample's true class. -/
noncomputable def nllLoss {n k : ℕ} (logp : Fin n → Fin k → ℝ)
    (labels : Fin n → Fin k) : ℝ :=
  -((∑ i, logp i (labels i)) / (n : ℝ))

/-- `nn.CrossEntropyLoss()`: log-softmax of the raw scores fed to the
negative log likelihood. -/
noncomputable def crossEntropyLoss {n k : ℕ} (logits : Fin n → Fin k → ℝ)
    (labels : Fin n → Fin k) : ℝ :=
  nllLoss (fun i => logSoftmax (logits i)) labels

/-- The cell 5 stack (raw scores, no log-softmax), output dimension
generalized to `k`. -/
def seqLogits {k : ℕ} (W1 : Fin 128 → Fin 784 → ℝ) (b1 : Fin 128 → ℝ)
    (W2 : Fin 64 → Fin 128 → ℝ) (b2 : Fin 64 → ℝ)
    (W3 : Fin k → Fin 64 → ℝ) (b3 : Fin k → ℝ) (x : Fin 784 → ℝ) : Fin k → ℝ :=
  linearLayer W3 b3
    (fun j => relu (linearLayer W2 b2 (fun j' => relu (linearLayer W1 b1 x j')) j))

/-- The cell 7 stack: the same layers ending in `nn.LogSoftmax(dim=1)`. -/
noncomputable def seqModel {k : ℕ} (W1 : Fin 128 → Fin 784 → ℝ) (b1 : Fin 128 → ℝ)
    (W2 : Fin 64 → Fin 128 → ℝ) (b2 : Fin 64 → ℝ)
    (W3 : Fin k → Fin 64 → ℝ) (b3 : Fin k → ℝ) (x : Fin 784 → ℝ) : Fin k → ℝ :=
  logSoftmax (seqLogits W1 b1 W2 b2 W3 b3 x)

lemma seqLogits_zero {k : ℕ} (x : Fin 784 → ℝ) (i : Fin k) :
    seqLogits 0 0 0 0 0 0 x i = 0 := by
  simp [seqLogits, linearLayer]

lemma logSoftmax_const_zero {k : ℕ} (i : Fin k) :
    logSoftmax (fun _ : Fin k => (0 : ℝ)) i = -Real.log k := by
  simp [logSoftmax, Finset.sum_const, Finset.card_univ]

/-- C8: with every weight and bias zero and two output classes, the model's
log-probabilities are uniform over the two classes for any input, and both
loss formulations — log-softmax output fed to the negative log likelihood,
and cross-entropy on the raw scores — give exactly `ln 2` on any batch of
four samples, before any parameter update. -/
theorem C8_zero_model_loss_ln_two (xs : Fin 4 → Fin 784 → ℝ) (labels : Fin 4 → Fin 2) :
    nllLoss (fun s => seqModel (k := 2) 0 0 0 0 0 0 (xs s)) labels = Real.log 2 ∧
      crossEntropyLoss (fun s => seqLogits (k := 2) 0 0 0 0 0 0 (xs s)) labels =
        Real.log 2 := by
  have hrow : ∀ (x : Fin 784 → ℝ) (i : Fin 2),
      logSoftmax (seqLogits (k := 2) 0 0 0 0 0 0 x) i = -Real.log 2 := by
    intro x i
    have hz : seqLogits (k := 2) 0 0 0 0 0 0 x = fun _ => (0 : ℝ) :=
      funext fun j => seqLogits_zero x j
    rw [hz]
    simpa using logSoftmax_const_zero (k := 2) i
  have hsum : (∑ s : Fin 4,
      logSoftmax (seqLogits (k := 2) 0 0 0 0 0 0 (xs s)) (labels s)) = 4 * (-Real.log 2) := by
    rw [Finset.sum_congr rfl fun s _ => hrow (xs s) (labels s)]
    simp [Finset.sum_const, Finset.card_univ]
  constructor
  · rw [show (fun s => seqModel (k := 2) 0 0 0 0 0 0 (xs s)) =
      fun s => logSoftmax (seqLogits (k := 2) 0 0 0 0 0 0 (xs s)) from rfl]
    rw [nllLoss, hsum]
    push_cast
    ring
  · rw [crossEntropyLoss, nllLoss]
    rw [show (∑ s : Fin 4, logSoftmax (seqLogits (k := 2) 0 0 0 0 0 0 (xs s)) (labels s)) =
      4 * (-Real.log 2) from hsum]
    push_cast
    ring

/-! ## The two `Classifier.forward` variants of Part 5 (cells 3 and 16)

Both classifiers stack `Linear(784,256)`, `Linear(256,128)`, `Linear(128,64)`,
`Linear(64,10)` with ReLU between and log-softmax on the output; the dropout
variant additionally passes each of the three hidden activations through
`nn.Dropout(p=0.2)`, which in training mode zeroes masked coordinates and
rescales the kept ones by `1/(1-p)`, and in evaluation mode is the
identity. -/

/-- Weights and biases of the Part 5 `Classifier`. -/
structure ClassifierParams where
  w1 : Fin 256 → Fin 784 → ℝ
  b1 : Fin 256 → ℝ
  w2 : Fin 128 → Fin 256 → ℝ
  b2 : Fin 128 → ℝ
  w3 : Fin 64 → Fin 128 → ℝ
  b3 : Fin 64 → ℝ
  w4 : Fin 10 → Fin 64 → ℝ
  b4 : Fin 10 → ℝ

/-- `Classifier.forward` of cell 3: no dropout. -/
noncomputable def classifierForward (P : ClassifierParams) (x : Fin 784 → ℝ) :
    Fin 10 → ℝ :=
  logSoftmax (linearLayer P.w4 P.b4
    (fun j3 => relu (linearLayer P.w3 P.b3
      (fun j2 => relu (linearLayer P.w2 P.b2
        (fun j1 => relu (linearLayer P.w1 P.b1 x j1)) j2)) j3)))

/-- `nn.Dropout(p)`: identity in evaluation mode; in training mode the masked
coordinates are zeroed and the kept ones rescaled by `1/(1-p)`. -/
noncomputable def dropoutLayer {n : ℕ} (md : Mode) (p : ℝ) (mask : Fin n → Bool)
    (x : Fin n → ℝ) : Fin n → ℝ :=
  match md with
  | Mode.eval => x
  | Mode.train => fun i => if mask i then x i / (1 - p) else 0

/-- `Classifier.forward` of cell 16: dropout with `p = 0.2` on each of the
three hidden activations, none on the final layer or the log-softmax
output. -/
noncomputable def classifierDropoutForward (md : Mode) (m1 : Fin 256 → Bool)
    (m2 : Fin 128 → Bool) (m3 : Fin 64 → Bool) (P : ClassifierParams)
    (x : Fin 784 → ℝ) : Fin 10 → ℝ :=
  logSoftmax (linearLayer P.w4 P.b4
    (dropoutLayer md (1 / 5) m3 (fun j3 => relu (linearLayer P.w3 P.b3
      (dropoutLayer md (1 / 5) m2 (fun j2 => relu (linearLayer P.w2 P.b2
        (dropoutLayer md (1 / 5) m1 (fun j1 => relu (linearLayer P.w1 P.b1 x j1))) j2))) j3))))

/-- C10: in evaluation mode the dropout-equipped classifier computes exactly
the same log-probabilities as the dropout-free classifier with the same
weights, for every input and every dropout mask: evaluation-mode dropout is
the identity and is applied only to the three hidden activations. -/
theorem C10_eval_forward_agrees (P : ClassifierParams) (x : Fin 784 → ℝ)
    (m1 : Fin 256 → Bool) (m2 : Fin 128 → Bool) (m3 : Fin 64 → Bool) :
    classifierDropoutForward Mode.eval m1 m2 m3 P x = classifierForward P x := rfl

end IntroPyTorch
